import Mathlib

/-!
Verification development for the pgzge scene-graph / object-lifecycle engine.

The definitions below are a shallow embedding of the Python sources:
  * `GameObject`, its `active` setter, `destroy`, `update`, the constructor,
    and `add_child` / `remove_child` embed `src/pgzge/core.py`;
  * `Sprite.update` and the behaviour algebra embed `src/pgzge/sprites.py`,
    `src/pgzge/behaviours/control.py` and `src/pgzge/behaviours/motion.py`;
  * `SpriteCollisions.update` embeds `src/pgzge/collisions.py`.

Handlers are arbitrary Python callables; we model each registered handler by
an opaque identifier (`Nat`) and record handler invocations (and the
`activated()` / `deactivated()` template-hook calls) in an event trace, in
the exact order the Python code performs the calls.  Python float scalars
(delta-times, positions, velocities, lifetimes) are modelled by exact
integers (`Int`): every claim settled here depends only on ordered-ring
facts about these scalars, never on floating-point rounding.
-/

namespace Pgzge

/-- The scalar fields of a `GameObject` (core.py lines 47-92): the five
ordered handler lists, the lifecycle flags, the advisory name and the parent
back-reference.  Each node also carries an identifier `oid` so that traces
can say on which node a template hook fired. -/
structure ObjState where
  oid : Nat
  name : Option Nat := none
  parent : Option Nat := none
  active : Bool := true
  enabled : Bool := true
  visible : Bool := true
  destroyed : Bool := false
  drawHandlers : List Nat := []
  updateHandlers : List Nat := []
  activateHandlers : List Nat := []
  deactivateHandlers : List Nat := []
  destroyHandlers : List Nat := []
  deriving Repr, DecidableEq

/-- A `GameObject` together with its owned ordered children (core.py:
`self.__children`). -/
inductive GameObject where
  | mk : ObjState → List GameObject → GameObject
  deriving Repr

/-- Observable events emitted while the engine runs: the `activated()` /
`deactivated()` template hooks (core.py lines 140-152) and calls of
registered handlers.  `updateCall` records that an update handler was called
with `(self, dt)` (core.py lines 280-282). -/
inductive Ev where
  | activatedHook (oid : Nat)
  | deactivatedHook (oid : Nat)
  | handlerCall (h : Nat)
  | updateCall (h : Nat) (dt : Int)
  deriving Repr, DecidableEq

def GameObject.state : GameObject → ObjState
  | .mk s _ => s

def GameObject.childList : GameObject → List GameObject
  | .mk _ cs => cs

def GameObject.rootActive (g : GameObject) : Bool := g.state.active

def GameObject.rootDestroyed (g : GameObject) : Bool := g.state.destroyed

def GameObject.rootParent (g : GameObject) : Option Nat := g.state.parent

def GameObject.rootOid (g : GameObject) : Nat := g.state.oid

mutual
/-- The `active` setter (core.py lines 111-138).  It returns the updated
object together with the trace of hook and handler calls, in order:
if the object is destroyed nothing happens; otherwise the flag is set,
the template hook and then the registered handlers fire only when the value
genuinely changed, and finally the same assignment is propagated into every
child in order (this propagation is outside the `do_handlers` guard in the
source, so it happens even when the value was unchanged). -/
def GameObject.setActive : GameObject → Bool → GameObject × List Ev
  | .mk s cs, v =>
    if s.destroyed then (.mk s cs, [])
    else
      let doHandlers := s.active != v
      let evs :=
        if doHandlers then
          if v then Ev.activatedHook s.oid :: s.activateHandlers.map Ev.handlerCall
          else Ev.deactivatedHook s.oid :: s.deactivateHandlers.map Ev.handlerCall
        else []
      let r := GameObject.setActiveList cs v
      (.mk { s with active := v } r.1, evs ++ r.2)

/-- Propagation of the `active` assignment over a child list (core.py lines
136-138). -/
def GameObject.setActiveList : List GameObject → Bool → List GameObject × List Ev
  | [], _ => ([], [])
  | c :: rest, v =>
    let r1 := GameObject.setActive c v
    let r2 := GameObject.setActiveList rest v
    (r1.1 :: r2.1, r1.2 ++ r2.2)
end

/-- Marks the root node destroyed (`self.__destroyed = True`, core.py line
191). -/
def GameObject.markDestroyed : GameObject → GameObject
  | .mk s cs => .mk { s with destroyed := true } cs

mutual
/-- `destroy()` (core.py lines 177-194): first recurses into every child,
then — only if not already destroyed — deactivates itself (the full `active`
setter, firing deactivate handlers), marks itself destroyed and fires its own
destroy handlers. -/
def GameObject.destroy : GameObject → GameObject × List Ev
  | .mk s cs =>
    let r1 := GameObject.destroyList cs
    if s.destroyed then (.mk s r1.1, r1.2)
    else
      let r2 := GameObject.setActive (.mk s r1.1) false
      (r2.1.markDestroyed, r1.2 ++ r2.2 ++ s.destroyHandlers.map Ev.handlerCall)

/-- `destroy()` propagated over a child list (core.py lines 183-185). -/
def GameObject.destroyList : List GameObject → List GameObject × List Ev
  | [] => ([], [])
  | c :: rest =>
    let r1 := GameObject.destroy c
    let r2 := GameObject.destroyList rest
    (r1.1 :: r2.1, r1.2 ++ r2.2)
end

/-- Severs the parent back-reference of a detached child
(`child.__parent = None`, core.py line 270). -/
def GameObject.severParent : GameObject → GameObject
  | .mk s cs => .mk { s with parent := none } cs

theorem sizeOf_filter_le {α : Type} [SizeOf α] (p : α → Bool) (l : List α) :
    sizeOf (l.filter p) ≤ sizeOf l := by
  induction l with
  | nil => simp
  | cons a rest ih =>
    by_cases h : p a = true
    · simp [List.filter_cons, h]
      omega
    · simp only [List.filter_cons, h, if_neg]
      simp only [Bool.false_eq_true, if_false, List.cons.sizeOf_spec]
      omega

mutual
/-- `update(dt)` (core.py lines 258-287): first purges children whose
destroyed flag is set — they are dropped from the children list and their
parent back-reference is severed — unconditionally; then, if inactive,
returns; otherwise runs the update handlers (if enabled) and recurses into
the remaining children in order.  The result is the updated object, the list
of all nodes detached during this pass (each with its parent severed), and
the event trace. -/
def GameObject.update : GameObject → Int → GameObject × List GameObject × List Ev
  | .mk s cs, dt =>
    let det := (cs.filter fun c => c.rootDestroyed).map GameObject.severParent
    let kept := cs.filter fun c => !c.rootDestroyed
    if !s.active then (.mk s kept, det, [])
    else
      let evs := if s.enabled then s.updateHandlers.map (fun h => Ev.updateCall h dt) else []
      let r := GameObject.updateList kept dt
      (.mk s r.1, det ++ r.2.1, evs ++ r.2.2)
termination_by g _ => sizeOf g
decreasing_by
  have := sizeOf_filter_le (fun c => !c.rootDestroyed) cs
  simp only [GameObject.mk.sizeOf_spec]
  omega

/-- `update(dt)` recursed over the surviving children (core.py lines
284-285). -/
def GameObject.updateList : List GameObject → Int → List GameObject × List GameObject × List Ev
  | [], _ => ([], [], [])
  | c :: rest, dt =>
    let r1 := GameObject.update c dt
    let r2 := GameObject.updateList rest dt
    (r1.1 :: r2.1, r1.2.1 ++ r2.2.1, r1.2.2 ++ r2.2.2)
termination_by cs _ => sizeOf cs
decreasing_by
  all_goals simp
  all_goals omega
end

/-- The `GameObject` constructor (core.py lines 47-92).  The handler lists
are copied and the optional single handlers appended; `destroyed` starts
false; then `self.__active = not active; self.active = active` forces one
genuine activation or deactivation transition through the full setter. -/
def GameObject.init (oid : Nat) (name : Option Nat) (active enabled visible : Bool)
    (children : List GameObject)
    (drawHandler updateHandler activateHandler deactivateHandler destroyHandler : Option Nat)
    (drawHandlers updateHandlers activateHandlers deactivateHandlers destroyHandlers : List Nat) :
    GameObject × List Ev :=
  let s : ObjState :=
    { oid := oid
      name := name
      parent := none
      active := !active
      enabled := enabled
      visible := visible
      destroyed := false
      drawHandlers := drawHandlers ++ drawHandler.toList
      updateHandlers := updateHandlers ++ updateHandler.toList
      activateHandlers := activateHandlers ++ activateHandler.toList
      deactivateHandlers := deactivateHandlers ++ deactivateHandler.toList
      destroyHandlers := destroyHandlers ++ destroyHandler.toList }
  GameObject.setActive (.mk s children) active

/-- The bare shape of a tree: node identifiers and child arrangement,
ignoring all flags.  Used to state that `destroy()` never detaches any
node. -/
inductive PTree where
  | node : Nat → List PTree → PTree
  deriving Repr

mutual
def GameObject.shape : GameObject → PTree
  | .mk s cs => .node s.oid (GameObject.shapeList cs)

def GameObject.shapeList : List GameObject → List PTree
  | [] => []
  | c :: rest => GameObject.shape c :: GameObject.shapeList rest
end

mutual
/-- Every node of the tree has its destroyed flag set. -/
def GameObject.allDestroyed : GameObject → Bool
  | .mk s cs => s.destroyed && GameObject.allDestroyedList cs

def GameObject.allDestroyedList : List GameObject → Bool
  | [] => true
  | c :: rest => GameObject.allDestroyed c && GameObject.allDestroyedList rest
end

mutual
/-- Every node of the tree holds `active = v`. -/
def GameObject.allActiveEq : GameObject → Bool → Bool
  | .mk s cs, v => (s.active == v) && GameObject.allActiveEqList cs v

def GameObject.allActiveEqList : List GameObject → Bool → Bool
  | [], _ => true
  | c :: rest, v => GameObject.allActiveEq c v && GameObject.allActiveEqList rest v
end

/-! ### The parent/children link structure

`add_child` / `remove_child` (core.py lines 211-240) manipulate only the
parent back-reference of the child and the children sequence of the caller.
We model the heap of objects as a map from object identifiers to their link
state; the spec names the errors these operations raise
`StructuralViolation`. -/

/-- The error taxonomy of the core (spec §7): a structural violation of the
single-parent ownership invariant.  In the source both cases are raised as
`ValueError` with distinct messages (core.py lines 220 and 236). -/
inductive StructuralViolation where
  | childAlreadyParented
  | notAChild
  deriving Repr, DecidableEq

/-- The link fields of one object: its parent back-reference and its owned
children sequence. -/
structure LinkState where
  parent : Option Nat := none
  children : List Nat := []
  deriving Repr, DecidableEq

/-- A heap of objects, by identifier. -/
def LinkWorld : Type := Nat → LinkState

/-- `add_child` (core.py lines 211-224): raises if the child already has a
parent; otherwise sets the child's parent to the caller and appends the
child to the caller's children.  (The Python `if not child` guard handles
only a `None` argument and is not modelled; identifiers always denote
objects.) -/
def add_child (w : LinkWorld) (p c : Nat) : Except StructuralViolation LinkWorld :=
  match (w c).parent with
  | some _ => .error .childAlreadyParented
  | none =>
    .ok fun i =>
      let b := w i
      let b1 := if i = c then { b with parent := some p } else b
      if i = p then { b1 with children := b1.children ++ [c] } else b1

/-- `remove_child` (core.py lines 226-240): a silent no-op if the child has
no parent; raises if the child's parent is another object; otherwise clears
the child's parent and removes the first occurrence of the child from the
caller's children (`list.remove`). -/
def remove_child (w : LinkWorld) (p c : Nat) : Except StructuralViolation LinkWorld :=
  match (w c).parent with
  | none => .ok w
  | some q =>
    if q = p then
      .ok fun i =>
        let b := w i
        let b1 := if i = c then { b with parent := none } else b
        if i = p then { b1 with children := b1.children.erase c } else b1
    else .error .notAChild

/-! ### Sprites and the behaviour algebra

`Sprite` (src/pgzge/sprites.py) belongs to the earlier engine variant in
which destruction is a plain boolean mark (`self.destroy = True`), read by
the collision pass.  A behaviour's `enabled`, `execute` and `remove` methods
may mutate the behaviour object itself (`Sequence.enabled` advances
`self.index`, `Exactly.execute` decrements `self.count`), so the embedded
operations return the updated behaviour.  The recursion of
`Sequence.enabled` is not structural (it re-queries the behaviour object it
just updated), so the three operations take a fuel argument; every theorem
below either supplies sufficient fuel explicitly or assumes it. -/

/-- The sprite state a behaviour can observe and mutate: the position
(`sprite.pos`). -/
structure BSprite where
  posx : Int
  posy : Int
  deriving Repr, DecidableEq

/-- Events emitted during a sprite tick: `Callback.execute` invokes
`self.func(dt, sprite)` (control.py lines 61-66). -/
inductive BEv where
  | callbackRun (f : Nat) (dt : Int)
  deriving Repr, DecidableEq

/-- The behaviour algebra: the base class `Behaviour` (sprites.py lines
1-9), the combinators of behaviours/control.py and the `Move` leaf of
behaviours/motion.py (lines 25-61).  `move` carries the constructor data
`offset`/`velocity` and the mutable per-axis remaining distances
`x_left`/`y_left`. -/
inductive Behaviour where
  | base
  | move (offsetX offsetY xLeft yLeft vx vy : Int)
  | callback (f : Nat)
  | sequence (bs : List Behaviour) (index : Nat)
  | removeWhenFinished (b : Behaviour)
  | whilst (primary secondary : Behaviour)
  | exactly (count : Int) (b : Behaviour)
  deriving Repr

/-- `enabled(sprite)` with fuel.  Matches the sources:
`Behaviour.enabled` is `True`; `Move.enabled` is `x_left > 0 or y_left > 0`;
`Sequence.enabled` queries the current behaviour (mutating it), advances the
index past a disabled behaviour unless it is the last, and otherwise
re-queries the (updated) current behaviour; `RemoveWhenFinished.enabled` and
`Whilst.enabled` delegate (to the inner behaviour resp. the primary);
`Exactly.enabled` is `count > 0`.  Out of fuel yields `(false, b)`;
an out-of-range `Sequence` index (a Python `IndexError`, unreachable for the
states built by the constructors) also yields `false`. -/
def Behaviour.enabledF : Nat → Behaviour → BSprite → Bool × Behaviour
  | 0, b, _ => (false, b)
  | _ + 1, .base, _ => (true, .base)
  | _ + 1, .move ox oy xl yl vx vy, _ =>
    (decide (0 < xl) || decide (0 < yl), .move ox oy xl yl vx vy)
  | _ + 1, .callback f, _ => (true, .callback f)
  | fuel + 1, .sequence bs i, sp =>
    match bs.get? i with
    | none => (false, .sequence bs i)
    | some b =>
      let r1 := Behaviour.enabledF fuel b sp
      if !r1.1 && decide (i < bs.length - 1) then
        Behaviour.enabledF fuel (.sequence (bs.set i r1.2) (i + 1)) sp
      else
        let r2 := Behaviour.enabledF fuel r1.2 sp
        (r2.1, .sequence (bs.set i r2.2) i)
  | fuel + 1, .removeWhenFinished b, sp =>
    let r := Behaviour.enabledF fuel b sp
    (r.1, .removeWhenFinished r.2)
  | fuel + 1, .whilst p q, sp =>
    let r := Behaviour.enabledF fuel p sp
    (r.1, .whilst r.2 q)
  | _ + 1, .exactly n b, _ => (decide (0 < n), .exactly n b)

/-- `remove(sprite)` with fuel.  Only `RemoveWhenFinished` overrides the
base `False`: its result is the negation of the inner behaviour's
`enabled()` (which may mutate the inner behaviour). -/
def Behaviour.removeF : Nat → Behaviour → BSprite → Bool × Behaviour
  | 0, b, _ => (false, b)
  | fuel + 1, .removeWhenFinished b, sp =>
    let r := Behaviour.enabledF fuel b sp
    (!r.1, .removeWhenFinished r.2)
  | _ + 1, b, _ => (false, b)

/-- `Move.execute` (motion.py lines 33-58): per-axis displacement capped by
the remaining distance, with the sign taken from the offset. -/
def moveStep (dt ox oy xl yl vx vy : Int) (sp : BSprite) :
    BSprite × Behaviour :=
  let x0 := |vx * dt|
  let y0 := |vy * dt|
  let x1 := if xl ≤ 0 then 0 else x0
  let y1 := if yl ≤ 0 then 0 else y0
  let x2 := if xl < x1 then xl else x1
  let y2 := if yl < y1 then yl else y1
  let xl2 := xl - x2
  let yl2 := yl - y2
  let x3 := if ox < 0 then -x2 else x2
  let y3 := if oy < 0 then -y2 else y2
  (⟨sp.posx + x3, sp.posy + y3⟩, .move ox oy xl2 yl2 vx vy)

/-- `execute(dt, sprite)` with fuel.  `Sequence.execute` runs only the
behaviour at the current index; `Whilst.execute` runs the primary then the
secondary; `Exactly.execute` decrements the count then runs the inner
behaviour; `Callback.execute` invokes the function (recorded as an event). -/
def Behaviour.executeF : Nat → Int → Behaviour → BSprite → BSprite × Behaviour × List BEv
  | 0, _, b, sp => (sp, b, [])
  | _ + 1, _, .base, sp => (sp, .base, [])
  | _ + 1, dt, .move ox oy xl yl vx vy, sp =>
    let r := moveStep dt ox oy xl yl vx vy sp
    (r.1, r.2, [])
  | _ + 1, dt, .callback f, sp => (sp, .callback f, [BEv.callbackRun f dt])
  | fuel + 1, dt, .sequence bs i, sp =>
    match bs.get? i with
    | none => (sp, .sequence bs i, [])
    | some b =>
      let r := Behaviour.executeF fuel dt b sp
      (r.1, .sequence (bs.set i r.2.1) i, r.2.2)
  | fuel + 1, dt, .removeWhenFinished b, sp =>
    let r := Behaviour.executeF fuel dt b sp
    (r.1, .removeWhenFinished r.2.1, r.2.2)
  | fuel + 1, dt, .whilst p q, sp =>
    let rp := Behaviour.executeF fuel dt p sp
    let rq := Behaviour.executeF fuel dt q rp.1
    (rq.1, .whilst rp.2.1 rq.2.1, rp.2.2 ++ rq.2.2)
  | fuel + 1, dt, .exactly n b, sp =>
    let r := Behaviour.executeF fuel dt b sp
    (r.1, .exactly (n - 1) r.2.1, r.2.2)

/-- The sprite state owned by `Sprite` that the tick touches: position,
optional lifetime countdown, the destruction mark and the behaviour list.
(The animation state mutated by `animate()` depends on the wall clock and is
not modelled; `animate` touches no field read by any behaviour.) -/
structure Sprite where
  posx : Int
  posy : Int
  lifetime : Option Int := none
  destroy : Bool := false
  behaviours : List Behaviour := []

/-- The eviction pass of `Sprite.update` (sprites.py lines 61-64): the list
comprehension keeps, in order, exactly the behaviours whose `remove(self)`
is false; the `remove` call itself may mutate the behaviour, and the kept
element is the mutated object. -/
def removePass (fuel : Nat) (sp : BSprite) : List Behaviour → List Behaviour
  | [] => []
  | b :: rest =>
    let r := Behaviour.removeF fuel b sp
    if r.1 then removePass fuel sp rest else r.2 :: removePass fuel sp rest

/-- The execution pass of `Sprite.update` (sprites.py lines 65-67): each
surviving behaviour is queried for `enabled(self)` (mutating it) and, if
enabled, executed — mutating the sprite, so later behaviours observe the
mutations made by earlier ones in the same tick. -/
def execPass (fuel : Nat) (dt : Int) : List Behaviour → BSprite → BSprite × List Behaviour × List BEv
  | [], sp => (sp, [], [])
  | b :: rest, sp =>
    let r1 := Behaviour.enabledF fuel b sp
    if r1.1 then
      let r2 := Behaviour.executeF fuel dt r1.2 sp
      let r3 := execPass fuel dt rest r2.1
      (r3.1, r2.2.1 :: r3.2.1, r2.2.2 ++ r3.2.2)
    else
      let r3 := execPass fuel dt rest sp
      (r3.1, r1.2 :: r3.2.1, r3.2.2)

/-- `Sprite.update(dt)` (sprites.py lines 52-67).  If the lifetime is set
(and nonzero — Python truthiness), it is decremented; if it has crossed
zero the sprite is marked for destruction and the tick ends, skipping the
behaviour passes.  Otherwise the eviction pass runs first, then the
execution pass over the survivors. -/
def Sprite.update (fuel : Nat) (dt : Int) (s : Sprite) : Sprite × List BEv :=
  let run : Sprite → Sprite × List BEv := fun s1 =>
    let bs1 := removePass fuel ⟨s1.posx, s1.posy⟩ s1.behaviours
    let r := execPass fuel dt bs1 ⟨s1.posx, s1.posy⟩
    ({ s1 with posx := r.1.posx, posy := r.1.posy, behaviours := r.2.1 }, r.2.2)
  match s.lifetime with
  | none => run s
  | some L =>
    if L = 0 then run s
    else
      let L2 := L - dt
      if L2 ≤ 0 then ({ s with lifetime := some L2, destroy := true }, [])
      else run { s with lifetime := some L2 }

/-! ### Collisions

`SpriteCollisions.update` (src/pgzge/collisions.py lines 10-19) walks the
registered detection rules; for each rule it takes the cross product of the
two group queries and invokes the callback on every pair that is not marked
for destruction and whose bounding boxes collide.  The group queries are
modelled by their (pure) results; `destroy` is the boolean destruction mark
of the sprite variant used by this file, and `colliderect` is the pygame
rectangle overlap test (strict overlap of integer rectangles). -/

/-- A sprite as seen by the collision pass: its identifier, destruction mark
and bounding box. -/
structure CSprite where
  oid : Nat
  destroy : Bool
  x : Int
  y : Int
  w : Int
  h : Int
  deriving Repr, DecidableEq

/-- pygame `Rect.colliderect`: true when the rectangles overlap in both
axes (touching edges do not collide). -/
def colliderect (a b : CSprite) : Bool :=
  decide (a.x < b.x + b.w) && decide (b.x < a.x + a.w) &&
  decide (a.y < b.y + b.h) && decide (b.y < a.y + a.h)

/-- One detection rule: the two group queries (modelled by their results)
and the callback, by identifier. -/
structure Detection where
  g1 : List CSprite
  g2 : List CSprite
  cb : Nat

/-- The inner loop over the second group for a fixed `sprite1`
(collisions.py lines 14-19). -/
def pairTrace (cb : Nat) (s1 : CSprite) : List CSprite → List (Nat × Nat × Nat)
  | [] => []
  | s2 :: rest =>
    let tail := pairTrace cb s1 rest
    if s1.destroy || s2.destroy then tail
    else if colliderect s1 s2 then (cb, s1.oid, s2.oid) :: tail
    else tail

/-- The loop over the first group of one rule (collisions.py lines 13-19). -/
def ruleTrace (d : Detection) : List CSprite → List (Nat × Nat × Nat)
  | [] => []
  | s1 :: rest => pairTrace d.cb s1 d.g2 ++ ruleTrace d rest

/-- `SpriteCollisions.update(dt)`: the trace of callback invocations
`(callback, sprite1, sprite2)`, over all rules in registration order. -/
def collisionsUpdate : List Detection → List (Nat × Nat × Nat)
  | [] => []
  | d :: rest => ruleTrace d d.g1 ++ collisionsUpdate rest

/-! ## Basic lemmas about the lifecycle operations -/

/-- The `active` setter returns immediately on a destroyed object. -/
theorem setActive_of_destroyed (s : ObjState) (cs : List GameObject) (v : Bool)
    (h : s.destroyed = true) :
    GameObject.setActive (.mk s cs) v = (.mk s cs, []) := by
  simp [GameObject.setActive, h]

/-- Propagating an `active` assignment over a list of destroyed subtrees
changes nothing and fires nothing. -/
theorem setActiveList_of_allDestroyed (cs : List GameObject) (v : Bool)
    (h : GameObject.allDestroyedList cs = true) :
    GameObject.setActiveList cs v = (cs, []) := by
  induction cs with
  | nil => simp [GameObject.setActiveList]
  | cons c rest ih =>
    rw [GameObject.allDestroyedList] at h
    simp only [Bool.and_eq_true] at h
    obtain ⟨h1, h2⟩ := h
    match c with
    | .mk s ds =>
      rw [GameObject.allDestroyed] at h1
      simp only [Bool.and_eq_true] at h1
      rw [GameObject.setActiveList, setActive_of_destroyed s ds v h1.1, ih h2]
      simp

mutual
/-- After `destroy()`, every node of the subtree is marked destroyed. -/
theorem destroy_allDestroyed (g : GameObject) :
    GameObject.allDestroyed (GameObject.destroy g).1 = true := by
  match g with
  | .mk s cs =>
    rw [GameObject.destroy]
    have hL := destroyList_allDestroyed cs
    cases h : s.destroyed with
    | true =>
      simp only [h, if_true]
      rw [GameObject.allDestroyed]
      simp [h, hL]
    | false =>
      simp only [h, Bool.false_eq_true, if_false]
      rw [GameObject.setActive]
      simp only [h, Bool.false_eq_true, if_false]
      rw [setActiveList_of_allDestroyed _ _ hL]
      rw [GameObject.markDestroyed, GameObject.allDestroyed]
      simp [hL]

theorem destroyList_allDestroyed (cs : List GameObject) :
    GameObject.allDestroyedList (GameObject.destroyList cs).1 = true := by
  match cs with
  | [] => rw [GameObject.destroyList, GameObject.allDestroyedList]
  | c :: rest =>
    rw [GameObject.destroyList, GameObject.allDestroyedList]
    simp [destroy_allDestroyed c, destroyList_allDestroyed rest]
end

mutual
/-- `destroy()` on a fully destroyed subtree changes nothing and fires
nothing. -/
theorem destroy_of_allDestroyed (g : GameObject)
    (h : GameObject.allDestroyed g = true) :
    GameObject.destroy g = (g, []) := by
  match g with
  | .mk s cs =>
    rw [GameObject.allDestroyed] at h
    simp only [Bool.and_eq_true] at h
    rw [GameObject.destroy, destroyList_of_allDestroyed cs h.2]
    simp [h.1]

theorem destroyList_of_allDestroyed (cs : List GameObject)
    (h : GameObject.allDestroyedList cs = true) :
    GameObject.destroyList cs = (cs, []) := by
  match cs with
  | [] => rw [GameObject.destroyList]
  | c :: rest =>
    rw [GameObject.allDestroyedList] at h
    simp only [Bool.and_eq_true] at h
    rw [GameObject.destroyList, destroy_of_allDestroyed c h.1,
      destroyList_of_allDestroyed rest h.2]
    simp
end

/-- `setActive` leaves the whole scalar state except the `active` flag
unchanged at the root, and in particular preserves the root's handler lists
and destroyed flag. -/
theorem setActive_root_state (s : ObjState) (cs : List GameObject) (v : Bool)
    (h : s.destroyed = false) :
    ((GameObject.setActive (.mk s cs) v).1).state = { s with active := v } := by
  rw [GameObject.setActive]
  simp [h, GameObject.state]

/-- The setter's early return, phrased on the root flag. -/
theorem setActive_of_rootDestroyed (g : GameObject) (v : Bool)
    (h : g.rootDestroyed = true) :
    GameObject.setActive g v = (g, []) := by
  match g with
  | .mk s cs => exact setActive_of_destroyed s cs v h

/-- The object `destroy()` leaves behind, when the object was not yet
destroyed: the root is deactivated and marked destroyed above the
recursively destroyed children. -/
theorem destroy_fst_of_not_destroyed (s : ObjState) (cs : List GameObject)
    (h : s.destroyed = false) :
    (GameObject.destroy (.mk s cs)).1 =
      .mk { s with active := false, destroyed := true }
        (GameObject.setActiveList (GameObject.destroyList cs).1 false).1 := by
  rw [GameObject.destroy]
  simp only [h, Bool.false_eq_true, if_false]
  rw [GameObject.setActive]
  simp only [h, Bool.false_eq_true, if_false]
  rw [GameObject.markDestroyed]

/-- The full trace of `destroy()` on a not-yet-destroyed object: the
children's destroy traces first, then this node's deactivation (hook and
deactivate handlers, when it was active), then its own destroy handlers,
once per registration. -/
theorem destroy_snd_of_not_destroyed (s : ObjState) (cs : List GameObject)
    (h : s.destroyed = false) :
    (GameObject.destroy (.mk s cs)).2 =
      (GameObject.destroyList cs).2
        ++ ((if s.active = true
              then Ev.deactivatedHook s.oid :: s.deactivateHandlers.map Ev.handlerCall
              else [])
            ++ (GameObject.setActiveList (GameObject.destroyList cs).1 false).2)
        ++ s.destroyHandlers.map Ev.handlerCall := by
  rw [GameObject.destroy]
  simp only [h, Bool.false_eq_true, if_false]
  rw [GameObject.setActive]
  simp only [h, Bool.false_eq_true, if_false, Bool.bne_false]

/-! ## The claims -/

/-- **C1.**  Once destroyed, `active` can never become true again: running
`destroy()` on a not-yet-destroyed `GameObject` leaves it marked destroyed
with `active = False`, and a subsequent assignment `active = True` changes
nothing — the flag stays `False`, no activate handler fires and the
`activated()` hook is not called (the event trace of the assignment is
empty).  In addition, the assignment is a complete no-op on any object whose
destroyed flag is set, whatever the rest of its state. -/
theorem C1_destroyed_blocks_activation (s : ObjState) (cs : List GameObject) :
    ((GameObject.destroy (.mk { s with destroyed := false } cs)).1.rootDestroyed = true
      ∧ (GameObject.destroy (.mk { s with destroyed := false } cs)).1.rootActive = false
      ∧ GameObject.setActive (GameObject.destroy (.mk { s with destroyed := false } cs)).1 true
          = ((GameObject.destroy (.mk { s with destroyed := false } cs)).1, []))
    ∧ (∀ (t : ObjState) (ds : List GameObject),
        GameObject.setActive (.mk { t with destroyed := true } ds) true
          = (.mk { t with destroyed := true } ds, [])) := by
  have hf : ({ s with destroyed := false } : ObjState).destroyed = false := rfl
  have hd := destroy_fst_of_not_destroyed { s with destroyed := false } cs hf
  refine ⟨⟨?_, ?_, ?_⟩, ?_⟩
  · rw [hd]; rfl
  · rw [hd]; rfl
  · apply setActive_of_rootDestroyed
    rw [hd]; rfl
  · intro t ds
    exact setActive_of_destroyed _ ds true rfl

/-- **C2.**  For a parent with children `[c1, c2]`: assigning the parent's
`active` a genuinely new value (`!a` when it currently holds `a`) first runs
the parent's own template hook and then the parent's handlers in
registration order, and only then recurses into `c1` and then `c2` (the
parent's events form the prefix of the trace, `c1`'s full assignment trace
precedes `c2`'s, and the children in the result are exactly the recursive
assignments, in order).  Conversely `destroy()` destroys `c1` and then `c2`
— each firing its own destroy handlers — before the parent's deactivation
and destroy handlers fire. -/
theorem C2_activation_topdown_destroy_bottomup
    (s t1 t2 : ObjState) (g1 g2 : GameObject) (ds1 ds2 : List GameObject) (a : Bool) :
    (GameObject.setActive (.mk { s with destroyed := false, active := a } [g1, g2]) (!a)
      = (.mk { s with destroyed := false, active := !a }
            [(GameObject.setActive g1 (!a)).1, (GameObject.setActive g2 (!a)).1],
          (if (!a) = true
            then Ev.activatedHook s.oid :: s.activateHandlers.map Ev.handlerCall
            else Ev.deactivatedHook s.oid :: s.deactivateHandlers.map Ev.handlerCall)
          ++ ((GameObject.setActive g1 (!a)).2 ++ (GameObject.setActive g2 (!a)).2)))
    ∧ (GameObject.destroy
        (.mk { s with destroyed := false }
          [.mk { t1 with destroyed := false } ds1, .mk { t2 with destroyed := false } ds2])).2
      = ((GameObject.destroy (.mk { t1 with destroyed := false } ds1)).2
          ++ (GameObject.destroy (.mk { t2 with destroyed := false } ds2)).2)
        ++ (if s.active = true
              then Ev.deactivatedHook s.oid :: s.deactivateHandlers.map Ev.handlerCall
              else [])
        ++ s.destroyHandlers.map Ev.handlerCall
    ∧ (GameObject.destroy (.mk { t1 with destroyed := false } ds1)).2
      = (GameObject.destroyList ds1).2
        ++ ((if t1.active = true
              then Ev.deactivatedHook t1.oid :: t1.deactivateHandlers.map Ev.handlerCall
              else [])
            ++ (GameObject.setActiveList (GameObject.destroyList ds1).1 false).2)
        ++ t1.destroyHandlers.map Ev.handlerCall := by
  refine ⟨?_, ?_, destroy_snd_of_not_destroyed _ ds1 rfl⟩
  · cases a <;>
      simp [GameObject.setActive, GameObject.setActiveList]
  · rw [destroy_snd_of_not_destroyed _ _ rfl]
    have hc1 : GameObject.allDestroyed
        (GameObject.destroy (.mk { t1 with destroyed := false } ds1)).1 = true :=
      destroy_allDestroyed _
    have hc2 : GameObject.allDestroyed
        (GameObject.destroy (.mk { t2 with destroyed := false } ds2)).1 = true :=
      destroy_allDestroyed _
    have hall : GameObject.allDestroyedList
        (GameObject.destroyList
          [.mk { t1 with destroyed := false } ds1,
            .mk { t2 with destroyed := false } ds2]).1 = true :=
      destroyList_allDestroyed _
    rw [setActiveList_of_allDestroyed _ _ hall]
    simp [GameObject.destroyList]

mutual
/-- Assigning `active = v` to a subtree in which every node already holds
`active = v` changes nothing and fires nothing. -/
theorem setActive_of_allActiveEq (g : GameObject) (v : Bool)
    (h : GameObject.allActiveEq g v = true) :
    GameObject.setActive g v = (g, []) := by
  match g with
  | .mk s cs =>
    rw [GameObject.allActiveEq] at h
    simp only [Bool.and_eq_true, beq_iff_eq] at h
    rw [GameObject.setActive]
    cases hd : s.destroyed with
    | true => simp [hd]
    | false =>
      simp only [hd, Bool.false_eq_true, if_false]
      rw [setActiveList_of_allActiveEq cs v h.2]
      rw [← h.1]
      simp
      rw [← hd]

theorem setActiveList_of_allActiveEq (cs : List GameObject) (v : Bool)
    (h : GameObject.allActiveEqList cs v = true) :
    GameObject.setActiveList cs v = (cs, []) := by
  match cs with
  | [] => rw [GameObject.setActiveList]
  | c :: rest =>
    rw [GameObject.allActiveEqList] at h
    simp only [Bool.and_eq_true] at h
    rw [GameObject.setActiveList, setActive_of_allActiveEq c v h.1,
      setActiveList_of_allActiveEq rest v h.2]
    simp
end

/-- Concrete input refuting C3 as stated: an active parent with an inactive
child that owns one activate handler. -/
def sameValueDemo : GameObject :=
  .mk { oid := 0, active := true }
    [.mk { oid := 1, active := false, activateHandlers := [7] } []]

/-- **C3 (counterexample).**  The claim that assigning a non-destroyed
`GameObject` the `active` value it already holds changes no state of any
descendant and fires no handlers is false: on `sameValueDemo` (not
destroyed, `active = true`, child inactive), assigning `active = true`
fires the child's `activated()` hook and its activate handler, and flips
the child's `active` flag from false to true. -/
theorem C3_counterexample :
    sameValueDemo.rootDestroyed = false
    ∧ sameValueDemo.rootActive = true
    ∧ (GameObject.setActive sameValueDemo true).2 = [Ev.activatedHook 1, Ev.handlerCall 7]
    ∧ sameValueDemo.childList.map GameObject.rootActive = [false]
    ∧ (GameObject.setActive sameValueDemo true).1.childList.map GameObject.rootActive
        = [true] := by
  refine ⟨rfl, rfl, ?_, rfl, ?_⟩ <;> decide

/-- **C3 (amended).**  Assigning a non-destroyed `GameObject` the `active`
value it already holds fires no handler and no template hook on the object
itself and leaves the object's own state unchanged — but the assignment is
still propagated into every child (first conjunct); a non-destroyed child
whose `active` flag differs is therefore changed and fires its hook and
handlers (second conjunct, and see `C3_counterexample`); and the assignment
is a complete no-op whenever every node of the subtree already holds the
assigned value (third conjunct). -/
theorem C3_same_value_assignment (s : ObjState) (cs : List GameObject) (v : Bool) :
    (GameObject.setActive (.mk { s with destroyed := false, active := v } cs) v
      = (.mk { s with destroyed := false, active := v } (GameObject.setActiveList cs v).1,
          (GameObject.setActiveList cs v).2))
    ∧ (∀ (t : ObjState) (ds : List GameObject),
        GameObject.setActive (.mk { t with destroyed := false, active := !v } ds) v
          = (.mk { t with destroyed := false, active := v } (GameObject.setActiveList ds v).1,
              (if v = true
                then Ev.activatedHook t.oid :: t.activateHandlers.map Ev.handlerCall
                else Ev.deactivatedHook t.oid :: t.deactivateHandlers.map Ev.handlerCall)
              ++ (GameObject.setActiveList ds v).2))
    ∧ (∀ g : GameObject, GameObject.allActiveEq g v = true →
        GameObject.setActive g v = (g, [])) := by
  refine ⟨?_, ?_, ?_⟩
  · rw [GameObject.setActive]
    simp
  · intro t ds
    cases v <;> simp [GameObject.setActive]
  · intro g h
    exact setActive_of_allActiveEq g v h

/-- Witness for the hypothesis inside `C3_same_value_assignment`: a concrete
subtree uniformly holding `active = true`, on which the assignment is a
no-op. -/
theorem C3_same_value_assignment_witness :
    GameObject.allActiveEq (.mk { oid := 5, active := true } []) true = true
    ∧ GameObject.setActive (.mk { oid := 5, active := true } []) true
        = (.mk { oid := 5, active := true } [], []) :=
  ⟨by decide, (C3_same_value_assignment { oid := 5, active := true } [] true).2.2
    (.mk { oid := 5, active := true } []) (by decide)⟩

/-- **C5.**  Calling `destroy()` twice in succession on a not-yet-destroyed
`GameObject` fires its destroy handlers exactly once — once per handler
registration, as the final segment of the first call's trace — and the
second call returns the object unchanged with an empty trace (no handler
fires at all). -/
theorem C5_double_destroy (s : ObjState) (cs : List GameObject) :
    GameObject.destroy (GameObject.destroy (.mk { s with destroyed := false } cs)).1
      = ((GameObject.destroy (.mk { s with destroyed := false } cs)).1, [])
    ∧ (GameObject.destroy (.mk { s with destroyed := false } cs)).2
      = (GameObject.destroyList cs).2
        ++ ((if s.active = true
              then Ev.deactivatedHook s.oid :: s.deactivateHandlers.map Ev.handlerCall
              else [])
            ++ (GameObject.setActiveList (GameObject.destroyList cs).1 false).2)
        ++ s.destroyHandlers.map Ev.handlerCall :=
  ⟨destroy_of_allDestroyed _ (destroy_allDestroyed _),
    destroy_snd_of_not_destroyed _ cs rfl⟩

/-- **C10.**  Constructing a `GameObject` performs exactly one activation or
deactivation transition: the handler lists are the copied list arguments
with the single-handler arguments appended, and the constructor's final
`self.__active = not active; self.active = active` makes the change-guard
true, so with `active = True` the `activated()` hook and every supplied
activate handler fire (and with `active = False` the `deactivated()` hook
and the supplied deactivate handlers fire instead), before the constructor
returns; the assignment then recurses into the supplied children. -/
theorem C10_constructor_fires_one_transition
    (oid : Nat) (name : Option Nat) (active enabled visible : Bool)
    (children : List GameObject)
    (dh uh ah deh dsh : Option Nat) (dhs uhs ahs dehs dshs : List Nat) :
    GameObject.init oid name active enabled visible children dh uh ah deh dsh
        dhs uhs ahs dehs dshs
      = (.mk
          { oid := oid, name := name, parent := none, active := active,
            enabled := enabled, visible := visible, destroyed := false,
            drawHandlers := dhs ++ dh.toList, updateHandlers := uhs ++ uh.toList,
            activateHandlers := ahs ++ ah.toList,
            deactivateHandlers := dehs ++ deh.toList,
            destroyHandlers := dshs ++ dsh.toList }
          (GameObject.setActiveList children active).1,
        (if active = true
          then Ev.activatedHook oid :: (ahs ++ ah.toList).map Ev.handlerCall
          else Ev.deactivatedHook oid :: (dehs ++ deh.toList).map Ev.handlerCall)
        ++ (GameObject.setActiveList children active).2) := by
  rw [GameObject.init, GameObject.setActive]
  cases active <;> simp

/-! ### Lemmas about `update` -/

/-- `update` never changes the scalar state of the node it is called on. -/
theorem update_root_state (g : GameObject) (dt : Int) :
    ((GameObject.update g dt).1).state = g.state := by
  match g with
  | .mk s cs =>
    rw [GameObject.update]
    cases s.active <;> simp [GameObject.state]

/-- Recursing `update` over a child list preserves each child's identity,
in order. -/
theorem updateList_map_rootOid (cs : List GameObject) (dt : Int) :
    (GameObject.updateList cs dt).1.map GameObject.rootOid
      = cs.map GameObject.rootOid := by
  induction cs with
  | nil => rw [GameObject.updateList]
  | cons c rest ih =>
    rw [GameObject.updateList]
    simp only [List.map_cons, ih]
    have : (GameObject.update c dt).1.rootOid = c.rootOid := by
      rw [GameObject.rootOid, GameObject.rootOid, update_root_state]
    rw [this]

/-- A severed node reports no parent. -/
theorem severParent_rootParent (g : GameObject) :
    (GameObject.severParent g).rootParent = none := by
  match g with
  | .mk s cs => rfl

mutual
/-- Every node detached during an `update` pass has its parent reference
severed. -/
theorem update_detached_severed (g : GameObject) (dt : Int) :
    ((GameObject.update g dt).2.1.all fun d => d.rootParent == none) = true := by
  match g with
  | .mk s cs =>
    rw [GameObject.update]
    cases s.active with
    | false =>
      simp [List.all_map, Function.comp_def, severParent_rootParent]
    | true =>
      simp only [Bool.not_true, Bool.false_eq_true, if_false]
      rw [List.all_append]
      have h1 : (((cs.filter fun c => c.rootDestroyed).map GameObject.severParent).all
          fun d => d.rootParent == none) = true := by
        simp [List.all_map, Function.comp_def, severParent_rootParent]
      rw [h1, updateList_detached_severed (cs.filter fun c => !c.rootDestroyed) dt]
      rfl
termination_by sizeOf g
decreasing_by
  have := sizeOf_filter_le (fun c => !c.rootDestroyed) cs
  simp only [GameObject.mk.sizeOf_spec]
  omega

theorem updateList_detached_severed (cs : List GameObject) (dt : Int) :
    ((GameObject.updateList cs dt).2.1.all fun d => d.rootParent == none) = true := by
  match cs with
  | [] => rw [GameObject.updateList]; rfl
  | c :: rest =>
    rw [GameObject.updateList]
    simp only
    rw [List.all_append, update_detached_severed c dt, updateList_detached_severed rest dt]
    rfl
termination_by sizeOf cs
decreasing_by
  all_goals simp
  all_goals omega
end

mutual
/-- The `active` setter never changes the shape of the tree: no node is
added, removed or re-ordered. -/
theorem shape_setActive (g : GameObject) (v : Bool) :
    GameObject.shape (GameObject.setActive g v).1 = GameObject.shape g := by
  match g with
  | .mk s cs =>
    rw [GameObject.setActive]
    cases hd : s.destroyed with
    | true => simp [hd]
    | false =>
      simp only [hd, Bool.false_eq_true, if_false]
      rw [GameObject.shape, GameObject.shape]
      simp only [PTree.node.injEq, true_and]
      exact shapeList_setActiveList cs v

theorem shapeList_setActiveList (cs : List GameObject) (v : Bool) :
    GameObject.shapeList (GameObject.setActiveList cs v).1 = GameObject.shapeList cs := by
  match cs with
  | [] => rw [GameObject.setActiveList]
  | c :: rest =>
    rw [GameObject.setActiveList]
    simp only
    rw [GameObject.shapeList, GameObject.shapeList,
      shape_setActive c v, shapeList_setActiveList rest v]
end

mutual
/-- `destroy()` never changes the shape of the tree: in particular it never
detaches any node from its parent's children sequence — a destroyed node is
only detached at the start of the parent's next `update`. -/
theorem shape_destroy (g : GameObject) :
    GameObject.shape (GameObject.destroy g).1 = GameObject.shape g := by
  match g with
  | .mk s cs =>
    rw [GameObject.destroy]
    cases hd : s.destroyed with
    | true =>
      simp only [hd, if_true]
      rw [GameObject.shape, GameObject.shape]
      simp only [PTree.node.injEq, true_and]
      exact shapeList_destroyList cs
    | false =>
      simp only [hd, Bool.false_eq_true, if_false]
      have hm : ∀ h : GameObject,
          GameObject.shape h.markDestroyed = GameObject.shape h := by
        intro h
        match h with
        | .mk t ds => rw [GameObject.markDestroyed, GameObject.shape, GameObject.shape]
      rw [hm, shape_setActive]
      rw [GameObject.shape, GameObject.shape]
      simp only [PTree.node.injEq, true_and]
      exact shapeList_destroyList cs

theorem shapeList_destroyList (cs : List GameObject) :
    GameObject.shapeList (GameObject.destroyList cs).1 = GameObject.shapeList cs := by
  match cs with
  | [] => rw [GameObject.destroyList]
  | c :: rest =>
    rw [GameObject.destroyList]
    simp only
    rw [GameObject.shapeList, GameObject.shapeList, shape_destroy c,
      shapeList_destroyList rest]
end

/-- **C6.**  `update(dt)` first detaches every child whose destroyed flag is
set — removing it from the children sequence and severing its parent
back-reference — unconditionally, even when the object is inactive, in
which case the call then returns with no handler run and no recursion into
children; the surviving children are exactly the non-destroyed ones, in
order, whatever the active flag; every node detached by the pass has its
parent reference severed; and `destroy()` itself never detaches a node (it
preserves the whole tree shape), so a destroyed node is detached only by
its parent's next `update`. -/
theorem C6_update_purge (s : ObjState) (cs : List GameObject) (dt : Int) :
    (GameObject.update (.mk { s with active := false } cs) dt
      = (.mk { s with active := false } (cs.filter fun c => !c.rootDestroyed),
          ((cs.filter fun c => c.rootDestroyed).map GameObject.severParent, [])))
    ∧ (GameObject.update (.mk s cs) dt).1.childList.map GameObject.rootOid
        = (cs.filter fun c => !c.rootDestroyed).map GameObject.rootOid
    ∧ ((GameObject.update (.mk s cs) dt).2.1.all fun d => d.rootParent == none) = true
    ∧ GameObject.shape (GameObject.destroy (.mk s cs)).1 = GameObject.shape (.mk s cs) := by
  refine ⟨?_, ?_, update_detached_severed _ dt, shape_destroy _⟩
  · rw [GameObject.update]
    simp
  · rw [GameObject.update]
    cases s.active with
    | false => simp [GameObject.childList]
    | true =>
      simp only [Bool.not_true, Bool.false_eq_true, if_false, GameObject.childList]
      exact updateList_map_rootOid _ dt

/-- **C4.**  `add_child` raises `StructuralViolation` when the child already
has a parent, and otherwise sets the child's parent to the caller and
appends the child to the caller's children, touching no other object.
`remove_child` is a silent no-op when the child has no parent, raises
`StructuralViolation` when the child's parent is another object, and
otherwise clears the child's parent and removes the child from the caller's
children, touching no other object. -/
theorem C4_add_remove_child (w : LinkWorld) (p c q : Nat) :
    ((w c).parent = some q → add_child w p c = .error .childAlreadyParented)
    ∧ ((w c).parent = none →
        ∃ w2, add_child w p c = .ok w2
          ∧ (w2 c).parent = some p
          ∧ (w2 p).children = (w p).children ++ [c]
          ∧ ∀ i, i ≠ c → i ≠ p → w2 i = w i)
    ∧ ((w c).parent = none → remove_child w p c = .ok w)
    ∧ ((w c).parent = some q → q ≠ p → remove_child w p c = .error .notAChild)
    ∧ ((w c).parent = some p →
        ∃ w2, remove_child w p c = .ok w2
          ∧ (w2 c).parent = none
          ∧ (w2 p).children = (w p).children.erase c
          ∧ ∀ i, i ≠ c → i ≠ p → w2 i = w i) := by
  refine ⟨?_, ?_, ?_, ?_, ?_⟩
  · intro h
    rw [add_child, h]
  · intro h
    refine ⟨_, by rw [add_child, h], ?_, ?_, ?_⟩
    · by_cases hpc : c = p <;> simp [hpc]
    · by_cases hpc : p = c <;> simp [hpc]
    · intro i hic hip
      simp [hic, hip]
  · intro h
    rw [remove_child, h]
  · intro h hqp
    rw [remove_child, h]
    simp [hqp]
  · intro h
    refine ⟨fun i =>
        let b := w i
        let b1 := if i = c then { b with parent := none } else b
        if i = p then { b1 with children := b1.children.erase c } else b1,
      by rw [remove_child, h]; simp, ?_, ?_, ?_⟩
    · by_cases hpc : c = p <;> simp [hpc]
    · by_cases hpc : p = c <;> simp [hpc]
    · intro i hic hip
      simp [hic, hip]

/-- Concrete world for the C4 witness: object 1 is a child of object 0,
object 2 is parentless. -/
def linkDemo : LinkWorld := fun i =>
  if i = 1 then { parent := some 0 }
  else if i = 0 then { children := [1] }
  else {}

/-- Witness for `C4_add_remove_child`: on `linkDemo`, re-parenting the
already-parented object 1 under 2 raises, adding the parentless object 2
under 0 succeeds and links both sides, removing the parentless object 2
from 0 is a no-op, removing object 1 via the non-parent 2 raises, and
removing object 1 via its parent 0 unlinks both sides. -/
theorem C4_add_remove_child_witness :
    add_child linkDemo 2 1 = .error .childAlreadyParented
    ∧ (∃ w2, add_child linkDemo 0 2 = .ok w2
        ∧ (w2 2).parent = some 0
        ∧ (w2 0).children = (linkDemo 0).children ++ [2]
        ∧ ∀ i, i ≠ 2 → i ≠ 0 → w2 i = linkDemo i)
    ∧ remove_child linkDemo 0 2 = .ok linkDemo
    ∧ remove_child linkDemo 2 1 = .error .notAChild
    ∧ (∃ w2, remove_child linkDemo 0 1 = .ok w2
        ∧ (w2 1).parent = none
        ∧ (w2 0).children = (linkDemo 0).children.erase 1
        ∧ ∀ i, i ≠ 1 → i ≠ 0 → w2 i = linkDemo i) :=
  ⟨(C4_add_remove_child linkDemo 2 1 0).1 rfl,
    (C4_add_remove_child linkDemo 0 2 0).2.1 rfl,
    (C4_add_remove_child linkDemo 0 2 0).2.2.1 rfl,
    (C4_add_remove_child linkDemo 2 1 0).2.2.2.1 rfl (by decide),
    (C4_add_remove_child linkDemo 0 1 0).2.2.2.2 rfl⟩

/-! ### Lemmas about the collision pass -/

/-- The number of callback invocations `(cb, a.oid, y)` produced by the
inner loop for `a` equals the number of second-group sprites with identifier
`y` that pass the destruction guard and collide with `a`. -/
theorem pairTrace_count (cb : Nat) (a : CSprite) (l : List CSprite) (y : Nat) :
    (pairTrace cb a l).count (cb, a.oid, y)
      = l.countP fun s2 => (!a.destroy && !s2.destroy && colliderect a s2) && (s2.oid == y) := by
  induction l with
  | nil => rfl
  | cons s2 rest ih =>
    rw [pairTrace, List.countP_cons]
    cases ha : a.destroy with
    | true => simp [ha, ih]
    | false =>
      cases hs : s2.destroy with
      | true => simp [ha, hs, ih]
      | false =>
        cases hc : colliderect a s2 with
        | false => simp [ha, hs, hc, ih]
        | true =>
          by_cases ho : s2.oid = y
          · simp [ha, hs, hc, ho, List.count_cons, ih]
          · simp [ha, hs, hc, ho, List.count_cons, ih]

/-- The inner loop for `s1` only produces invocations whose second component
is `s1`'s identifier. -/
theorem pairTrace_count_ne (cb : Nat) (s1 : CSprite) (l : List CSprite) (x y : Nat)
    (h : s1.oid ≠ x) :
    (pairTrace cb s1 l).count (cb, x, y) = 0 := by
  induction l with
  | nil => rfl
  | cons s2 rest ih =>
    rw [pairTrace]
    cases hd : (s1.destroy || s2.destroy) with
    | true => simpa using ih
    | false =>
      cases hc : colliderect s1 s2 with
      | false => simpa using ih
      | true =>
        simp only [Bool.false_eq_true, if_false, if_true]
        rw [List.count_cons]
        simp only [ih]
        simp only [Nat.zero_add]
        rw [if_neg]
        intro he
        rw [beq_iff_eq] at he
        injection he with h1 h23
        injection h23 with h2 h3
        exact h h2

/-- When a predicate `s.oid == b.oid` selects exactly one element of `l` and
`b` belongs to `l`, that element is `b`, so counting a conjunction with any
further predicate `q` yields `1` or `0` according to `q b`. -/
theorem countP_unique_and (q : CSprite → Bool) (b : CSprite) (l : List CSprite)
    (hc : l.countP (fun s => s.oid == b.oid) = 1) (hm : b ∈ l) :
    l.countP (fun s => q s && (s.oid == b.oid)) = if q b then 1 else 0 := by
  induction l with
  | nil => simp at hm
  | cons s rest ih =>
    rw [List.countP_cons] at hc ⊢
    by_cases ho : (s.oid == b.oid) = true
    · have h0 : rest.countP (fun s => s.oid == b.oid) = 0 := by
        rw [if_pos ho] at hc; omega
      have hsb : s = b := by
        cases hm with
        | head => rfl
        | tail _ hmem =>
          exfalso
          have hpos : 0 < rest.countP (fun s => s.oid == b.oid) :=
            List.countP_pos_iff.mpr ⟨b, hmem, by simp⟩
          omega
      subst hsb
      have h0' : rest.countP (fun s2 => q s2 && (s2.oid == s.oid)) = 0 := by
        rw [List.countP_eq_zero]
        intro x hx hpx
        rw [Bool.and_eq_true] at hpx
        exact (List.countP_eq_zero.mp h0) x hx hpx.2
      rw [h0']
      cases hq : q s <;> simp [hq, ho]
    · have hm' : b ∈ rest := by
        cases hm with
        | head => exact absurd (by simp) ho
        | tail _ hmem => exact hmem
      have hc' : rest.countP (fun s => s.oid == b.oid) = 1 := by
        rw [if_neg ho] at hc; omega
      rw [ih hc' hm']
      have hq : (q s && (s.oid == b.oid)) = false := by
        cases hqq : q s <;> simp [hqq, Bool.eq_false_iff.mpr ho]
      rw [hq]
      simp

/-- A first group containing no sprite with identifier `x` produces no
invocation `(cb, x, y)`. -/
theorem ruleTrace_count_zero (d : Detection) (l : List CSprite) (x y : Nat)
    (h : ∀ s1 ∈ l, s1.oid ≠ x) :
    (ruleTrace d l).count (d.cb, x, y) = 0 := by
  induction l with
  | nil => rfl
  | cons s1 rest ih =>
    rw [ruleTrace, List.count_append]
    rw [pairTrace_count_ne _ _ _ _ _ (h s1 (by simp))]
    rw [ih fun s hs => h s (List.mem_cons_of_mem _ hs)]

/-- Per-tick invocation count of one rule, for a pair `(a, b)` that each
group query mentions exactly once (by identifier): exactly one invocation
when neither sprite is marked for destruction and their boxes collide,
otherwise none. -/
theorem ruleTrace_count (d : Detection) (l : List CSprite) (a b : CSprite)
    (hc : l.countP (fun s => s.oid == a.oid) = 1) (hm : a ∈ l)
    (hc2 : d.g2.countP (fun s => s.oid == b.oid) = 1) (hm2 : b ∈ d.g2) :
    (ruleTrace d l).count (d.cb, a.oid, b.oid)
      = if (!a.destroy && !b.destroy && colliderect a b) = true then 1 else 0 := by
  induction l with
  | nil => simp at hm
  | cons s1 rest ih =>
    rw [ruleTrace, List.count_append]
    rw [List.countP_cons] at hc
    by_cases ho : (s1.oid == a.oid) = true
    · have h0 : rest.countP (fun s => s.oid == a.oid) = 0 := by
        rw [if_pos ho] at hc; omega
      have hsa : s1 = a := by
        cases hm with
        | head => rfl
        | tail _ hmem =>
          exfalso
          have hpos : 0 < rest.countP (fun s => s.oid == a.oid) :=
            List.countP_pos_iff.mpr ⟨a, hmem, by simp⟩
          omega
      subst hsa
      have hz : (ruleTrace d rest).count (d.cb, s1.oid, b.oid) = 0 := by
        apply ruleTrace_count_zero
        intro s hs hx
        have hpos : 0 < rest.countP (fun t => t.oid == s1.oid) :=
          List.countP_pos_iff.mpr ⟨s, hs, by simp [hx]⟩
        omega
      rw [pairTrace_count, countP_unique_and _ b d.g2 hc2 hm2, hz]
      simp
    · have hm' : a ∈ rest := by
        cases hm with
        | head => exact absurd (by simp) ho
        | tail _ hmem => exact hmem
      have hc' : rest.countP (fun s => s.oid == a.oid) = 1 := by
        rw [if_neg ho] at hc; omega
      have hne : s1.oid ≠ a.oid := by simpa using ho
      rw [pairTrace_count_ne _ _ _ _ _ hne, ih hc' hm']
      omega

/-- The collision pass handles the registered rules independently, in
order. -/
theorem collisionsUpdate_append (ds1 ds2 : List Detection) :
    collisionsUpdate (ds1 ++ ds2) = collisionsUpdate ds1 ++ collisionsUpdate ds2 := by
  induction ds1 with
  | nil => simp [collisionsUpdate]
  | cons d rest ih => simp [collisionsUpdate, ih]

/-- **C9.**  Each tick, each registered rule is evaluated independently in
order, and within a rule, for a pair `(a, b)` of the two group queries
(each mentioning that sprite's identifier exactly once), the callback is
invoked exactly once when neither sprite is marked for destruction and
their bounding boxes overlap, and zero times when either is marked for
destruction or the boxes do not overlap — in particular zero times once
`a.destroy` is set even while the boxes still overlap. -/
theorem C9_collision_rule (d : Detection) (ds1 ds2 : List Detection) (a b : CSprite)
    (h1 : d.g1.countP (fun s => s.oid == a.oid) = 1) (h2 : a ∈ d.g1)
    (h3 : d.g2.countP (fun s => s.oid == b.oid) = 1) (h4 : b ∈ d.g2) :
    collisionsUpdate (ds1 ++ d :: ds2)
        = collisionsUpdate ds1 ++ (ruleTrace d d.g1 ++ collisionsUpdate ds2)
    ∧ (ruleTrace d d.g1).count (d.cb, a.oid, b.oid)
        = if (!a.destroy && !b.destroy && colliderect a b) = true then 1 else 0 := by
  constructor
  · rw [collisionsUpdate_append]
    rfl
  · exact ruleTrace_count d d.g1 a b h1 h2 h3 h4

/-- Concrete sprites and rules for the C9 witness: two overlapping 4×4
boxes, neither marked for destruction, and the same pair with the first
sprite marked. -/
def collA : CSprite := ⟨0, false, 0, 0, 4, 4⟩

def collB : CSprite := ⟨1, false, 2, 2, 4, 4⟩

def collAMarked : CSprite := ⟨0, true, 0, 0, 4, 4⟩

def collDemo : Detection := ⟨[collA], [collB], 9⟩

def collDemoMarked : Detection := ⟨[collAMarked], [collB], 9⟩

/-- Witness for `C9_collision_rule`: with `G1 = {collA}` and `G2 = {collB}`
overlapping and unmarked the callback fires exactly once per tick, and once
the first sprite is marked for destruction it fires zero times although the
boxes still overlap. -/
theorem C9_collision_rule_witness :
    collisionsUpdate [collDemo] = [(9, 0, 1)]
    ∧ (ruleTrace collDemo collDemo.g1).count (collDemo.cb, collA.oid, collB.oid) = 1
    ∧ collAMarked.destroy = true
    ∧ colliderect collAMarked collB = true
    ∧ (ruleTrace collDemoMarked collDemoMarked.g1).count
        (collDemoMarked.cb, collAMarked.oid, collB.oid) = 0 := by
  have h1 := (C9_collision_rule collDemo [] [] collA collB
    (by decide) (by decide) (by decide) (by decide)).2
  have h2 := (C9_collision_rule collDemoMarked [] [] collAMarked collB
    (by decide) (by decide) (by decide) (by decide)).2
  refine ⟨by decide, ?_, rfl, by decide, ?_⟩
  · rw [h1]; decide
  · rw [h2]; decide

/-! ### The sprite tick contract (C7) -/

/-- Spec-side formulation of the eviction phase, from the claim's wording:
"behaviors whose `remove()` is true are evicted without executing" — the
surviving list keeps, in order, exactly the behaviours whose `remove` query
answered false (each possibly mutated by its own query). -/
def tickEvict (fuel : Nat) (sp : BSprite) (bs : List Behaviour) : List Behaviour :=
  bs.filterMap fun b =>
    let r := Behaviour.removeF fuel b sp
    if r.1 then none else some r.2

/-- Spec-side formulation of the execution phase, from the claim's wording:
"remaining behaviors whose `enabled()` is true execute in list order …
later behaviors observe mutations made by earlier ones in the same tick" —
a left fold that threads the sprite state through the behaviours in list
order. -/
def tickRun (fuel : Nat) (dt : Int) (bs : List Behaviour) (sp : BSprite) :
    BSprite × List Behaviour × List BEv :=
  bs.foldl
    (fun acc b =>
      let r1 := Behaviour.enabledF fuel b acc.1
      if r1.1 then
        let r2 := Behaviour.executeF fuel dt r1.2 acc.1
        (r2.1, acc.2.1 ++ [r2.2.1], acc.2.2 ++ r2.2.2)
      else (acc.1, acc.2.1 ++ [r1.2], acc.2.2))
    (sp, [], [])

/-- The eviction pass of the source is the spec-side filter. -/
theorem removePass_eq_tickEvict (fuel : Nat) (sp : BSprite) (bs : List Behaviour) :
    removePass fuel sp bs = tickEvict fuel sp bs := by
  induction bs with
  | nil => rfl
  | cons b rest ih =>
    rw [removePass, tickEvict, List.filterMap_cons]
    cases hr : (Behaviour.removeF fuel b sp).1 with
    | true => simp only [hr, if_true]; exact ih
    | false =>
      simp only [hr, Bool.false_eq_true, if_false]
      rw [ih]
      rfl

/-- Folding the execution step from arbitrary accumulators appends the
direct recursion's results. -/
theorem tickRun_foldl_acc (fuel : Nat) (dt : Int) (bs : List Behaviour)
    (sp : BSprite) (kept : List Behaviour) (evs : List BEv) :
    bs.foldl
      (fun acc b =>
        let r1 := Behaviour.enabledF fuel b acc.1
        if r1.1 then
          let r2 := Behaviour.executeF fuel dt r1.2 acc.1
          (r2.1, acc.2.1 ++ [r2.2.1], acc.2.2 ++ r2.2.2)
        else (acc.1, acc.2.1 ++ [r1.2], acc.2.2))
      (sp, kept, evs)
    = ((execPass fuel dt bs sp).1,
        kept ++ (execPass fuel dt bs sp).2.1,
        evs ++ (execPass fuel dt bs sp).2.2) := by
  induction bs generalizing sp kept evs with
  | nil => simp [execPass]
  | cons b rest ih =>
    rw [List.foldl_cons, execPass]
    cases he : (Behaviour.enabledF fuel b sp).1 with
    | true =>
      simp only [he, if_true]
      rw [ih]
      simp
    | false =>
      simp only [he, Bool.false_eq_true, if_false]
      rw [ih]
      simp

/-- The execution pass of the source is the spec-side left fold. -/
theorem execPass_eq_tickRun (fuel : Nat) (dt : Int) (bs : List Behaviour) (sp : BSprite) :
    execPass fuel dt bs sp = tickRun fuel dt bs sp := by
  rw [tickRun, tickRun_foldl_acc]
  simp

/-- **C7.**  On every sprite tick that reaches the behaviour passes (the
lifetime countdown, when present, has not crossed zero), behaviours whose
`remove(sprite)` is true are evicted before the execution pass — the
post-tick behaviour list is built from the survivors only, so an evicted
behaviour never executes again — and the surviving behaviours whose
`enabled(sprite)` is true execute in list order with the sprite state
threaded through the tick (a left fold), so later behaviours observe the
mutations made by earlier ones. -/
theorem C7_evict_then_execute_in_order (fuel : Nat) (dt px py : Int) (bs : List Behaviour) :
    (Sprite.update fuel dt
        { posx := px, posy := py, lifetime := none, destroy := false, behaviours := bs }
      = ({ posx := (tickRun fuel dt (tickEvict fuel ⟨px, py⟩ bs) ⟨px, py⟩).1.posx,
            posy := (tickRun fuel dt (tickEvict fuel ⟨px, py⟩ bs) ⟨px, py⟩).1.posy,
            lifetime := none, destroy := false,
            behaviours := (tickRun fuel dt (tickEvict fuel ⟨px, py⟩ bs) ⟨px, py⟩).2.1 },
          (tickRun fuel dt (tickEvict fuel ⟨px, py⟩ bs) ⟨px, py⟩).2.2))
    ∧ (∀ L : Int, L ≠ 0 → ¬(L - dt ≤ 0) →
        Sprite.update fuel dt
            { posx := px, posy := py, lifetime := some L, destroy := false, behaviours := bs }
          = ({ posx := (tickRun fuel dt (tickEvict fuel ⟨px, py⟩ bs) ⟨px, py⟩).1.posx,
                posy := (tickRun fuel dt (tickEvict fuel ⟨px, py⟩ bs) ⟨px, py⟩).1.posy,
                lifetime := some (L - dt), destroy := false,
                behaviours := (tickRun fuel dt (tickEvict fuel ⟨px, py⟩ bs) ⟨px, py⟩).2.1 },
              (tickRun fuel dt (tickEvict fuel ⟨px, py⟩ bs) ⟨px, py⟩).2.2)) := by
  constructor
  · rw [Sprite.update]
    simp only [removePass_eq_tickEvict, execPass_eq_tickRun]
  · intro L hL hLdt
    rw [Sprite.update]
    simp only [hL, hLdt, if_false, removePass_eq_tickEvict, execPass_eq_tickRun]

/-- Witness for `C7_evict_then_execute_in_order`: a sprite whose lifetime
`3` survives a tick of `dt = 1`, carrying one behaviour that is evicted
(`RemoveWhenFinished` of a finished `Move`) and one `Callback` that runs. -/
theorem C7_evict_then_execute_in_order_witness :
    (3 : Int) ≠ 0 ∧ ¬((3 : Int) - 1 ≤ 0) ∧
    Sprite.update 5 1
        { posx := 0, posy := 0, lifetime := some 3, destroy := false,
          behaviours := [.removeWhenFinished (.move 1 0 0 0 1 0), .callback 4] }
      = ({ posx := (tickRun 5 1 (tickEvict 5 ⟨0, 0⟩
              [.removeWhenFinished (.move 1 0 0 0 1 0), .callback 4]) ⟨0, 0⟩).1.posx,
            posy := (tickRun 5 1 (tickEvict 5 ⟨0, 0⟩
              [.removeWhenFinished (.move 1 0 0 0 1 0), .callback 4]) ⟨0, 0⟩).1.posy,
            lifetime := some ((3 : Int) - 1), destroy := false,
            behaviours := (tickRun 5 1 (tickEvict 5 ⟨0, 0⟩
              [.removeWhenFinished (.move 1 0 0 0 1 0), .callback 4]) ⟨0, 0⟩).2.1 },
          (tickRun 5 1 (tickEvict 5 ⟨0, 0⟩
            [.removeWhenFinished (.move 1 0 0 0 1 0), .callback 4]) ⟨0, 0⟩).2.2)
    ∧ tickEvict 5 ⟨0, 0⟩ [.removeWhenFinished (.move 1 0 0 0 1 0), .callback 4]
        = [.callback 4]
    ∧ (tickRun 5 1 [Behaviour.callback 4] ⟨0, 0⟩).2.2 = [BEv.callbackRun 4 1] :=
  ⟨by decide, by decide,
    (C7_evict_then_execute_in_order 5 1 0 0
        [.removeWhenFinished (.move 1 0 0 0 1 0), .callback 4]).2 3
      (by decide) (by decide),
    rfl, rfl⟩

/-! ### The `Sequence` combinator (C8) -/

/-- The leaves of the behaviour algebra: behaviours whose `enabled()` query
is a pure function of their own state (a combinator's query may mutate the
combinator). -/
def Behaviour.leafLike : Behaviour → Bool
  | .base => true
  | .move _ _ _ _ _ _ => true
  | .callback _ => true
  | .exactly _ _ => true
  | _ => false

/-- The value of a leaf behaviour's `enabled()` query: `Move` is enabled
while either axis has remaining distance, `Exactly` while its count is
positive, `Behaviour` and `Callback` always. -/
def Behaviour.leafEnabled : Behaviour → Bool
  | .move _ _ xl yl _ _ => decide (0 < xl) || decide (0 < yl)
  | .exactly n _ => decide (0 < n)
  | _ => true

theorem enabledF_leaf (fuel : Nat) (b : Behaviour) (sp : BSprite)
    (h : b.leafLike = true) :
    Behaviour.enabledF (fuel + 1) b sp = (b.leafEnabled, b) := by
  cases b with
  | base => rfl
  | move ox oy xl yl vx vy => rfl
  | callback f => rfl
  | exactly n c => rfl
  | sequence bs i => simp [Behaviour.leafLike] at h
  | removeWhenFinished c => simp [Behaviour.leafLike] at h
  | whilst p q => simp [Behaviour.leafLike] at h

/-- Writing back the element that was just read leaves a list unchanged. -/
theorem list_set_same {α : Type} (l : List α) (i : Nat) (b : α)
    (h : l.get? i = some b) : l.set i b = l := by
  induction l generalizing i with
  | nil => simp at h
  | cons x rest ih =>
    cases i with
    | zero =>
      simp only [List.get?] at h
      injection h with h
      rw [List.set, h]
    | succ n =>
      simp only [List.get?] at h
      rw [List.set, ih n h]

/-- `Sequence.enabled` unfolded at a valid current index. -/
theorem enabledF_sequence_some (fuel : Nat) (bs : List Behaviour) (i : Nat)
    (sp : BSprite) (b : Behaviour) (hb : bs.get? i = some b) :
    Behaviour.enabledF (fuel + 1) (.sequence bs i) sp
      = (let r1 := Behaviour.enabledF fuel b sp
         if !r1.1 && decide (i < bs.length - 1) then
           Behaviour.enabledF fuel (.sequence (bs.set i r1.2) (i + 1)) sp
         else
           let r2 := Behaviour.enabledF fuel r1.2 sp
           (r2.1, .sequence (bs.set i r2.2) i)) := by
  rw [Behaviour.enabledF, hb]

/-- The index `Sequence.enabled` settles on, written from the claim's
wording: starting at the current index, advance past any child whose
`enabled()` is false, stopping at the first still-enabled child or at the
last child of the list. -/
def seqAdvance (bs : List Behaviour) (i : Nat) : Nat :=
  if i < bs.length - 1 then
    if (bs.getD i .base).leafEnabled then i else seqAdvance bs (i + 1)
  else i
termination_by bs.length - i

/-- For a `Sequence` of leaf behaviours and enough fuel, `enabled()`
advances the index to `seqAdvance` and returns that child's enablement,
mutating nothing but the index. -/
theorem seq_enabled_advances (sp : BSprite) (bs : List Behaviour) :
    ∀ fuel i, (∀ c ∈ bs, c.leafLike = true) → i < bs.length →
      bs.length - i + 2 ≤ fuel →
      Behaviour.enabledF fuel (.sequence bs i) sp
        = ((bs.getD (seqAdvance bs i) .base).leafEnabled,
            .sequence bs (seqAdvance bs i)) := by
  intro fuel
  induction fuel with
  | zero =>
    intro i _ _ hf
    omega
  | succ f ih =>
    intro i hleaf hi hf
    have hb : bs.get? i = some bs[i] := by
      simp [List.getElem?_eq_getElem hi]
    have hmem : bs[i] ∈ bs := List.getElem_mem hi
    have hbD : bs.getD i .base = bs[i] := by
      simp [List.getD_eq_getElem?_getD, List.getElem?_eq_getElem hi]
    have hbD2 : bs[i]?.getD Behaviour.base = bs[i] := by
      simp [List.getElem?_eq_getElem hi]
    obtain ⟨f', rfl⟩ : ∃ f', f = f' + 1 := ⟨f - 1, by omega⟩
    rw [enabledF_sequence_some _ bs i sp _ hb]
    simp only [enabledF_leaf f' bs[i] sp (hleaf _ hmem)]
    rw [list_set_same bs i bs[i] hb]
    by_cases hE : bs[i].leafEnabled = true
    · simp only [hE, Bool.not_true, Bool.false_and, Bool.false_eq_true, if_false]
      have hADV : seqAdvance bs i = i := by
        rw [seqAdvance]
        by_cases hlt : i < bs.length - 1
        · simp [hlt, hbD2, hE]
        · simp [hlt]
      rw [hADV, hbD, hE]
    · have hEf : bs[i].leafEnabled = false := by
        cases hq : bs[i].leafEnabled
        · rfl
        · exact absurd hq hE
      by_cases hlt : i < bs.length - 1
      · have hADV : seqAdvance bs i = seqAdvance bs (i + 1) := by
          rw [seqAdvance]
          simp [hlt, hbD2, hEf]
        rw [hADV]
        have hstep := ih (i + 1) hleaf (by omega) (by omega)
        simp only [hEf, Bool.not_false, Bool.true_and]
        rw [if_pos (by simp [hlt])]
        exact hstep
      · have hADV : seqAdvance bs i = i := by
          rw [seqAdvance]
          simp [hlt]
        rw [hADV, hbD, hEf]
        simp [hEf, hlt]

/-- Move A of the C8 example: offset `(2, 0)` at velocity `(1, 0)` — two
ticks of `dt = 1` to finish. -/
def mvA : Behaviour := .move 2 0 2 0 1 0

/-- Move B of the C8 example: offset `(0, 2)` at velocity `(0, 1)`. -/
def mvB : Behaviour := .move 0 2 0 2 0 1

/-- The C8 example sprite: at the origin, with the single behaviour
`Sequence(Move A, Move B)`. -/
def seqDemo : Sprite :=
  { posx := 0, posy := 0, behaviours := [.sequence [mvA, mvB] 0] }

/-- **C8.**  `Sequence.execute` runs only the child at the current index
(every other position of the children list is untouched); `Sequence.enabled`
advances the index past any child whose `enabled()` has gone false, stopping
at the first still-enabled child or at the last child (`seqAdvance`), and
reports that child's enablement.  In particular, for
`Sequence(Move A 2 ticks, Move B 2 ticks)` from the origin with `dt = 1`:
two ticks move the sprite to `(2, 0)`; on the third tick — the first after
Move A's `enabled()` turned false — only Move B executes, moving the sprite
to `(2, 1)`, leaving Move A's remaining distances at zero and the index
at 1. -/
theorem C8_sequence_runs_current_only (dt px py : Int) (fuel : Nat)
    (bs : List Behaviour) (i : Nat) (b : Behaviour) :
    (bs.get? i = some b →
      Behaviour.executeF (fuel + 1) dt (.sequence bs i) ⟨px, py⟩
        = ((Behaviour.executeF fuel dt b ⟨px, py⟩).1,
            .sequence (bs.set i (Behaviour.executeF fuel dt b ⟨px, py⟩).2.1) i,
            (Behaviour.executeF fuel dt b ⟨px, py⟩).2.2)
      ∧ ∀ j, j ≠ i →
          (bs.set i (Behaviour.executeF fuel dt b ⟨px, py⟩).2.1).get? j = bs.get? j)
    ∧ ((∀ c ∈ bs, c.leafLike = true) → i < bs.length → bs.length - i + 2 ≤ fuel →
        Behaviour.enabledF fuel (.sequence bs i) ⟨px, py⟩
          = ((bs.getD (seqAdvance bs i) .base).leafEnabled,
              .sequence bs (seqAdvance bs i)))
    ∧ ((Sprite.update 10 1 ((Sprite.update 10 1 seqDemo).1)).1.posx = 2
        ∧ (Sprite.update 10 1 ((Sprite.update 10 1 seqDemo).1)).1.posy = 0
        ∧ (Sprite.update 10 1 ((Sprite.update 10 1 ((Sprite.update 10 1 seqDemo).1)).1)).1.posx
            = 2
        ∧ (Sprite.update 10 1 ((Sprite.update 10 1 ((Sprite.update 10 1 seqDemo).1)).1)).1.posy
            = 1
        ∧ (Sprite.update 10 1 ((Sprite.update 10 1 ((Sprite.update 10 1 seqDemo).1)).1)).1.behaviours
            = [.sequence [.move 2 0 0 0 1 0, .move 0 2 0 1 0 1] 1]) := by
  refine ⟨?_, ?_, by decide, by decide, by decide, by decide, rfl⟩
  · intro hb
    constructor
    · rw [Behaviour.executeF, hb]
    · intro j hj
      simp [List.getElem?_set_ne (Ne.symm hj)]
  · intro hleaf hi hf
    exact seq_enabled_advances ⟨px, py⟩ bs fuel i hleaf hi hf

/-- Witness for `C8_sequence_runs_current_only`: the hypotheses are
satisfied by the example sequence `[Move A, Move B]` at index 0 with fuel
10. -/
theorem C8_sequence_runs_current_only_witness :
    (Behaviour.executeF 10 1 (.sequence [mvA, mvB] 0) ⟨0, 0⟩
      = ((Behaviour.executeF 9 1 mvA ⟨0, 0⟩).1,
          .sequence ([mvA, mvB].set 0 (Behaviour.executeF 9 1 mvA ⟨0, 0⟩).2.1) 0,
          (Behaviour.executeF 9 1 mvA ⟨0, 0⟩).2.2))
    ∧ ([mvA, mvB].set 0 (Behaviour.executeF 9 1 mvA ⟨0, 0⟩).2.1).get? 1
        = [mvA, mvB].get? 1
    ∧ Behaviour.enabledF 10 (.sequence [mvA, mvB] 0) ⟨0, 0⟩
        = (([mvA, mvB].getD (seqAdvance [mvA, mvB] 0) .base).leafEnabled,
            .sequence [mvA, mvB] (seqAdvance [mvA, mvB] 0)) :=
  ⟨((C8_sequence_runs_current_only 1 0 0 9 [mvA, mvB] 0 mvA).1 rfl).1,
    ((C8_sequence_runs_current_only 1 0 0 9 [mvA, mvB] 0 mvA).1 rfl).2 1 (by decide),
    (C8_sequence_runs_current_only 1 0 0 10 [mvA, mvB] 0 mvA).2.1
      (by decide) (by decide) (by decide)⟩

end Pgzge
